import Mathlib

/-!
Verification development for the Refresherr reconciliation engine.

Each Python function of the repository that a property talks about is given a
shallow embedding here: SQLite tables become Lean lists of rows, `NULL`-able
columns become `Option`, timestamps become `Nat`, and the body of every Python
function is translated statement by statement.  External effects (the actual
filesystem, the relay HTTP call, the Sonarr lookup) are passed in as explicit
oracle parameters, mirroring how the Python code consumes their results.
-/

namespace Refresherr

/-! ## Action queue — `app/refresher/core/db.py`

The `actions` table: one row per outbound repair trigger.  `enqueue_action`
de-duplicates on `(url, status='pending')`; `mark_action_sent` transitions a
row to `sent` or `failed` and stamps the fired time. -/

structure Action where
  id : Nat
  url : String
  status : String
  reason : String
  relatedPath : Option String
  createdUtc : String
  firedUtc : Option String
  lastError : Option String
deriving Repr, DecidableEq

/-- `SELECT id FROM actions WHERE url=? AND status='pending'` is non-empty. -/
def hasPendingUrl (actions : List Action) (url : String) : Bool :=
  actions.any fun a => a.url == url && a.status == "pending"

/-- `db.enqueue_action`: if a pending row with the same url exists, return
without inserting; otherwise insert a fresh `pending` row. -/
def enqueue_action (actions : List Action) (nextId : Nat) (url reason : String)
    (relatedPath : Option String) (nowIso : String) : List Action :=
  if hasPendingUrl actions url then actions
  else actions ++ [⟨nextId, url, "pending", reason, relatedPath, nowIso, none, none⟩]

/-- `db.mark_action_sent`: `UPDATE actions SET status=?, fired_utc=? WHERE id=?`. -/
def mark_action_sent (actions : List Action) (actionId : Nat) (ok : Bool)
    (nowIso : String) : List Action :=
  actions.map fun a =>
    if a.id == actionId then
      { a with status := if ok then "sent" else "failed", firedUtc := some nowIso }
    else a

/-- Number of rows with `url=u AND status='pending'`. -/
def pendingCount (actions : List Action) (url : String) : Nat :=
  (actions.filter fun a => a.url == url && a.status == "pending").length

theorem hasPendingUrl_false_iff (actions : List Action) (u : String) :
    hasPendingUrl actions u = false ↔ pendingCount actions u = 0 := by
  simp [hasPendingUrl, pendingCount, List.length_eq_zero, List.filter_eq_nil_iff,
    List.any_eq_false]

theorem pendingCount_append (l₁ l₂ : List Action) (u : String) :
    pendingCount (l₁ ++ l₂) u = pendingCount l₁ u + pendingCount l₂ u := by
  simp [pendingCount, List.filter_append]

theorem filter_length_map_le {α : Type} (f : α → α) (p : α → Bool)
    (h : ∀ a, p (f a) = true → p a = true) :
    ∀ l : List α, ((l.map f).filter p).length ≤ (l.filter p).length := by
  intro l
  induction l with
  | nil => simp
  | cons a t ih =>
    simp only [List.map_cons, List.filter_cons]
    by_cases hfa : p (f a) = true
    · have hpa := h a hfa
      rw [if_pos hfa, if_pos hpa]
      simp only [List.length_cons]
      exact Nat.succ_le_succ ih
    · rw [if_neg hfa]
      split
      · exact le_trans ih (Nat.le_succ _)
      · exact ih

theorem enqueue_preserves_pending_unique (actions : List Action) (nid : Nat)
    (u r : String) (p : Option String) (now : String)
    (hinv : ∀ v, pendingCount actions v ≤ 1) :
    ∀ v, pendingCount (enqueue_action actions nid u r p now) v ≤ 1 := by
  intro v
  unfold enqueue_action
  by_cases h : hasPendingUrl actions u = true
  · simp only [h, if_true]; exact hinv v
  · have hb : hasPendingUrl actions u = false := by
      revert h; cases hasPendingUrl actions u <;> simp
    simp only [hb, Bool.false_eq_true, if_false, pendingCount_append]
    by_cases hv : u = v
    · subst hv
      have h0 : pendingCount actions u = 0 := (hasPendingUrl_false_iff actions u).mp hb
      have h1 : pendingCount [(⟨nid, u, "pending", r, p, now, none, none⟩ : Action)] u = 1 := by
        simp [pendingCount, List.filter_cons]
      omega
    · have hbeq : (u == v) = false := by
        exact beq_eq_false_iff_ne.mpr hv
      have h1 : pendingCount [(⟨nid, u, "pending", r, p, now, none, none⟩ : Action)] v = 0 := by
        simp [pendingCount, List.filter_cons, hbeq]
      have := hinv v
      omega

theorem mark_sent_preserves_pending_unique (actions : List Action) (aid : Nat)
    (ok : Bool) (now : String) (v : String)
    (hinv : pendingCount actions v ≤ 1) :
    pendingCount (mark_action_sent actions aid ok now) v ≤ 1 := by
  have key : pendingCount (mark_action_sent actions aid ok now) v
      ≤ pendingCount actions v := by
    unfold mark_action_sent pendingCount
    apply filter_length_map_le
    intro a
    by_cases hid : (a.id == aid) = true
    · simp only [hid, if_true]
      cases ok <;> simp
    · simp only [hid, Bool.false_eq_true, if_false]
      exact fun hx => hx
  exact le_trans key hinv

/-- C1: at most one `pending` action row per URL.
(i) enqueueing a URL that already has a pending row is a no-op on the table;
(ii) enqueueing the same URL twice in a row leaves exactly the state after the
first enqueue (the second call inserts nothing);
(iii) a double enqueue starting from a table with no pending row for the URL
yields exactly one pending row for it; and the per-URL pending-uniqueness
invariant is preserved by (iv) `enqueue_action` and (v) `mark_action_sent`. -/
theorem c1_enqueue_idempotent_pending_unique :
    (∀ actions nid u r p now, hasPendingUrl actions u = true →
       enqueue_action actions nid u r p now = actions)
    ∧ (∀ actions nid₁ nid₂ u r₁ r₂ p₁ p₂ n₁ n₂,
       enqueue_action (enqueue_action actions nid₁ u r₁ p₁ n₁) nid₂ u r₂ p₂ n₂
         = enqueue_action actions nid₁ u r₁ p₁ n₁)
    ∧ (∀ actions nid₁ nid₂ u r₁ r₂ p₁ p₂ n₁ n₂, hasPendingUrl actions u = false →
       pendingCount (enqueue_action (enqueue_action actions nid₁ u r₁ p₁ n₁) nid₂ u r₂ p₂ n₂) u
         = 1)
    ∧ (∀ actions nid u r p now, (∀ v, pendingCount actions v ≤ 1) →
       ∀ v, pendingCount (enqueue_action actions nid u r p now) v ≤ 1)
    ∧ (∀ actions aid ok now v, pendingCount actions v ≤ 1 →
       pendingCount (mark_action_sent actions aid ok now) v ≤ 1) := by
  have henq : ∀ (actions : List Action) nid u r p now, hasPendingUrl actions u = true →
      enqueue_action actions nid u r p now = actions := by
    intro actions nid u r p now h
    simp [enqueue_action, h]
  have happend : ∀ (actions : List Action) nid u r p now,
      hasPendingUrl (enqueue_action actions nid u r p now) u = true := by
    intro actions nid u r p now
    unfold enqueue_action
    by_cases h : hasPendingUrl actions u = true
    · simp only [h, if_true]
    · have hb : hasPendingUrl actions u = false := by simpa using h
      simp only [hb, Bool.false_eq_true, if_false]
      simp [hasPendingUrl, List.any_append]
  refine ⟨henq, ?_, ?_, enqueue_preserves_pending_unique, mark_sent_preserves_pending_unique⟩
  · intro actions nid₁ nid₂ u r₁ r₂ p₁ p₂ n₁ n₂
    exact henq _ nid₂ u r₂ p₂ n₂ (happend actions nid₁ u r₁ p₁ n₁)
  · intro actions nid₁ nid₂ u r₁ r₂ p₁ p₂ n₁ n₂ h
    have h0 : pendingCount actions u = 0 := (hasPendingUrl_false_iff actions u).mp h
    rw [henq _ nid₂ u r₂ p₂ n₂ (happend actions nid₁ u r₁ p₁ n₁)]
    unfold enqueue_action
    simp only [h, Bool.false_eq_true, if_false, pendingCount_append, h0]
    simp [pendingCount]

/-- C1 witness: concrete double-enqueue on an empty table leaves one pending row. -/
theorem c1_enqueue_idempotent_pending_unique_witness :
    pendingCount
      (enqueue_action (enqueue_action [] 1 "http://relay/find?x" "auto" none "t0")
        2 "http://relay/find?x" "auto" none "t1") "http://relay/find?x" = 1 :=
  c1_enqueue_idempotent_pending_unique.2.2.1 [] 1 2 "http://relay/find?x" "auto" "auto"
    none none "t0" "t1" (by decide)

/-! ## Status store — `app/refresher/core/store.py`

The `symlinks` snapshot table, plus the per-scan `symlink_history` and
`scan_seen` tables written by `add_items`. -/

structure StoreItem where
  path : String
  ext : Option String
  target : Option String
  broken : Bool
  sizeBytes : Option Int
  mtimeNs : Option Int
deriving Repr, DecidableEq

structure StoreRow where
  path : String
  ext : Option String
  lastTarget : Option String
  lastStatus : String
  lastSizeBytes : Option Int
  lastMtimeNs : Option Int
  firstSeenTs : Nat
  lastSeenTs : Nat
  timesSeen : Nat
  isCurrent : Nat
deriving Repr, DecidableEq

structure HistRow where
  scanId : Nat
  path : String
  status : String
  sizeBytes : Option Int
  mtimeNs : Option Int
  seenTs : Nat
deriving Repr, DecidableEq

structure StoreDB where
  symlinks : List StoreRow
  history : List HistRow
  scanSeen : List (Nat × String)
deriving Repr, DecidableEq

/-- `SELECT last_status FROM symlinks WHERE path=?` (path is the primary key). -/
def storeFindRow (rows : List StoreRow) (p : String) : Option StoreRow :=
  rows.find? fun r => r.path == p

/-- `"ok" if not it.get("broken") else "broken"`. -/
def statusOfItem (it : StoreItem) : String :=
  if it.broken then "broken" else "ok"

/-- The per-item upsert in `store.add_items`: a stored `repairing` status is
kept when the new observation is `broken`; otherwise the new status wins.
`INSERT .. ON CONFLICT(path) DO UPDATE` keyed on the `path` primary key. -/
def upsertItem (rows : List StoreRow) (now : Nat) (it : StoreItem) : List StoreRow :=
  let newStatus := statusOfItem it
  match storeFindRow rows it.path with
  | some r =>
    let eff := if r.lastStatus == "repairing" && newStatus == "broken"
               then "repairing" else newStatus
    rows.map fun q =>
      if q.path == it.path then
        { q with
          ext := it.ext, lastTarget := it.target, lastStatus := eff,
          lastSizeBytes := it.sizeBytes, lastMtimeNs := it.mtimeNs,
          lastSeenTs := now, timesSeen := q.timesSeen + 1, isCurrent := 1 }
      else q
  | none =>
    rows ++ [{
      path := it.path, ext := it.ext, lastTarget := it.target,
      lastStatus := newStatus, lastSizeBytes := it.sizeBytes,
      lastMtimeNs := it.mtimeNs, firstSeenTs := now, lastSeenTs := now,
      timesSeen := 1, isCurrent := 1 }]

/-- `store.add_items`: append history rows and the seen-set, then upsert each
item into the `symlinks` snapshot. -/
def add_items (db : StoreDB) (scanId : Nat) (items : List StoreItem) (now : Nat) : StoreDB :=
  { symlinks := items.foldl (fun rows it => upsertItem rows now it) db.symlinks,
    history := db.history ++ items.map fun it =>
      ⟨scanId, it.path, statusOfItem it, it.sizeBytes, it.mtimeNs, now⟩,
    scanSeen := db.scanSeen ++ items.map fun it => (scanId, it.path) }

theorem upsert_repairing_branch (rows : List StoreRow) (now : Nat) (it : StoreItem)
    (r : StoreRow) (hfind : storeFindRow rows it.path = some r)
    (hrep : r.lastStatus = "repairing") :
    ∀ q ∈ upsertItem rows now it, q.path = it.path →
      q.lastStatus = (if it.broken then "repairing" else "ok") := by
  intro q hq hqpath
  unfold upsertItem at hq
  rw [hfind] at hq
  simp only at hq
  rcases List.mem_map.mp hq with ⟨q₀, _, rfl⟩
  by_cases hmatch : (q₀.path == it.path) = true
  · rw [if_pos hmatch]
    cases hb : it.broken <;> simp [statusOfItem, hrep, hb]
  · exfalso
    rw [if_neg hmatch] at hqpath
    exact hmatch (by simp [hqpath])

/-- C10: in the batch upsert `add_items`, a record whose stored status is
`repairing` and which is observed `broken` keeps status `repairing`; an
observation of the same path as `ok` overwrites the status to `ok`.  Stated
for any row of the resulting snapshot at the item's path, both for the
per-item upsert and for a one-item `add_items` batch. -/
theorem c10_repairing_preserved_on_broken :
    (∀ rows now it r, storeFindRow rows it.path = some r → r.lastStatus = "repairing" →
      ∀ q ∈ upsertItem rows now it, q.path = it.path →
        ((it.broken = true → q.lastStatus = "repairing")
          ∧ (it.broken = false → q.lastStatus = "ok")))
    ∧ (∀ db scanId it now r, storeFindRow db.symlinks it.path = some r →
        r.lastStatus = "repairing" →
        ∀ q ∈ (add_items db scanId [it] now).symlinks, q.path = it.path →
          ((it.broken = true → q.lastStatus = "repairing")
            ∧ (it.broken = false → q.lastStatus = "ok"))) := by
  constructor
  · intro rows now it r hfind hrep q hq hqpath
    have h := upsert_repairing_branch rows now it r hfind hrep q hq hqpath
    constructor <;> intro hb <;> simp [hb] at h <;> exact h
  · intro db scanId it now r hfind hrep q hq hqpath
    have hq' : q ∈ upsertItem db.symlinks now it := by
      simpa [add_items] using hq
    have h := upsert_repairing_branch db.symlinks now it r hfind hrep q hq' hqpath
    constructor <;> intro hb <;> simp [hb] at h <;> exact h

/-- C10 witness: a concrete `repairing` row observed broken stays `repairing`. -/
theorem c10_repairing_preserved_on_broken_witness :
    ∀ q ∈ upsertItem
        [{
           path := "/opt/media/jelly/tv/A/Season 1/a.mkv", ext := some "mkv",
           lastTarget := some "/mnt/remote/a.mkv", lastStatus := "repairing",
           lastSizeBytes := none, lastMtimeNs := none, firstSeenTs := 5,
           lastSeenTs := 9, timesSeen := 3, isCurrent := 1 }] 10
        {
          path := "/opt/media/jelly/tv/A/Season 1/a.mkv", ext := some "mkv",
          target := some "/mnt/remote/a.mkv", broken := true,
          sizeBytes := none, mtimeNs := none },
      q.path = "/opt/media/jelly/tv/A/Season 1/a.mkv" →
        q.lastStatus = "repairing" := by
  intro q hq hqp
  exact (c10_repairing_preserved_on_broken.1 _ 10 _
    {
      path := "/opt/media/jelly/tv/A/Season 1/a.mkv", ext := some "mkv",
      lastTarget := some "/mnt/remote/a.mkv", lastStatus := "repairing",
      lastSizeBytes := none, lastMtimeNs := none, firstSeenTs := 5,
      lastSeenTs := 9, timesSeen := 3, isCurrent := 1 }
    (by decide) rfl q hq hqp).1 rfl

/-! ## Scanner store — `app/refresher/core/scanner.py`

The `symlinks`, `symlink_events` and `quarantines` tables, and
`record_observation` / `_resolve_quarantine_if_replaced`.  The Python `show`
column is called `showName` here (`show` is a Lean keyword). -/

structure Meta where
  library : Option String
  showName : Option String
  season : Option Int
  episode : Option Int
  ext : Option String
  filename : Option String
  parentDir : Option String
deriving Repr, DecidableEq

structure SymRow where
  path : String
  lastTarget : Option String
  lastStatus : String
  lastError : Option String
  library : Option String
  showName : Option String
  season : Option Int
  episode : Option Int
  ext : Option String
  filename : Option String
  parentDir : Option String
  firstSeenUtc : Nat
  lastSeenUtc : Nat
  lastCheckedUtc : Nat
  statusChangedUtc : Option Nat
  firstBrokenUtc : Option Nat
  lastBrokenUtc : Option Nat
  lastOkUtc : Option Nat
  seenCount : Nat
  brokenCount : Nat
  okCount : Nat
  errorCount : Nat
  lastScanId : Nat
  brokenAgeSeconds : Nat
  quarantineState : Option String
  quarantineLastSeenUtc : Option Nat
deriving Repr, DecidableEq

structure SymEvent where
  utc : Nat
  path : String
  oldStatus : String
  newStatus : String
  scanId : Nat
  note : Option String
deriving Repr, DecidableEq

structure QuarRow where
  id : Nat
  originalPath : String
  quarantinePath : String
  createdUtc : Nat
  state : String
  resolvedUtc : Option Nat
  resolvedScanId : Option Nat
  resolveReason : Option String
deriving Repr, DecidableEq

structure ScanDB where
  symlinks : List SymRow
  events : List SymEvent
  quarantines : List QuarRow
deriving Repr, DecidableEq

/-- `SELECT ... FROM symlinks WHERE path=?` (path is the primary key). -/
def findSym (rows : List SymRow) (p : String) : Option SymRow :=
  rows.find? fun r => r.path == p

/-- Pick the element maximising `key` (first listed wins ties), mirroring
`ORDER BY key DESC LIMIT 1`. -/
def foldMaxBy {α : Type} (key : α → Nat) (x : α) (xs : List α) : α :=
  xs.foldl (fun best q => if key q > key best then q else best) x

/-- `SELECT id FROM quarantines WHERE original_path=? AND state='quarantined'
ORDER BY created_utc DESC LIMIT 1`. -/
def latestOpenQuarantine (qs : List QuarRow) (p : String) : Option QuarRow :=
  match qs.filter fun q => q.originalPath == p && q.state == "quarantined" with
  | [] => none
  | x :: xs => some (foldMaxBy QuarRow.createdUtc x xs)

/-- The `UPDATE symlinks SET quarantine_state=NULL, quarantine_last_seen_utc=NULL
WHERE path=?` step of `_resolve_quarantine_if_replaced`. -/
def clearQuarCols (originalPath : String) (r : SymRow) : SymRow :=
  if r.path == originalPath then
    { r with quarantineState := none, quarantineLastSeenUtc := none }
  else r

/-- `scanner._resolve_quarantine_if_replaced`: resolve the single most recent
open quarantine row for the path (if any) and clear the convenience columns on
the symlink row. -/
def resolveQuarRow (sel : QuarRow) (scanId now : Nat) (q : QuarRow) : QuarRow :=
  if q.id == sel.id then
    { q with
      state := "resolved", resolvedUtc := some now,
      resolvedScanId := some scanId, resolveReason := some "replacement_seen" }
  else q

def resolveQuarantineIfReplaced (db : ScanDB) (originalPath : String)
    (scanId now : Nat) : ScanDB :=
  match latestOpenQuarantine db.quarantines originalPath with
  | none => db
  | some sel =>
    { db with
      quarantines := db.quarantines.map (resolveQuarRow sel scanId now),
      symlinks := db.symlinks.map (clearQuarCols originalPath) }

/-- The row `record_observation` inserts on first sight of a path.  The
Python truthiness test `if status == "broken" and first_broken_utc:` treats a
zero timestamp like `NULL`, hence the `fb ≠ 0` guard in the broken-age. -/
def newRowFor (path : String) (target : Option String) (status : String)
    (error : Option String) (meta : Meta) (scanId now : Nat) : SymRow :=
  let firstBroken := if status == "broken" then some now else none
  { path := path, lastTarget := target, lastStatus := status, lastError := error,
    library := meta.library, showName := meta.showName, season := meta.season,
    episode := meta.episode, ext := meta.ext, filename := meta.filename,
    parentDir := meta.parentDir,
    firstSeenUtc := now, lastSeenUtc := now, lastCheckedUtc := now,
    statusChangedUtc := some now,
    firstBrokenUtc := firstBroken,
    lastBrokenUtc := if status == "broken" then some now else none,
    lastOkUtc := if status == "ok" then some now else none,
    seenCount := 1,
    brokenCount := if status == "broken" then 1 else 0,
    okCount := if status == "ok" then 1 else 0,
    errorCount := if status == "error" then 1 else 0,
    lastScanId := scanId,
    brokenAgeSeconds :=
      match firstBroken with
      | some fb => if status == "broken" && fb != 0 then now - fb else 0
      | none => 0,
    quarantineState := none, quarantineLastSeenUtc := none }

/-- The `ON CONFLICT(path) DO UPDATE` row `record_observation` writes over an
existing row `r`: counters incremented in Python, `COALESCE` merges for the
metadata (`excluded` first) and the broken/ok stamps, `first_seen_utc` kept. -/
def updatedRowFor (r : SymRow) (target : Option String) (status : String)
    (error : Option String) (meta : Meta) (scanId now : Nat) : SymRow :=
  let statusChanged := r.lastStatus != status
  -- `first_broken_utc = first_broken; if broken and None: now` — the SQL
  -- `COALESCE(symlinks.first_broken_utc, excluded.first_broken_utc)` equals it.
  let firstBroken := match r.firstBrokenUtc with
    | some fb => some fb
    | none => if status == "broken" then some now else none
  { r with
    lastTarget := target, lastStatus := status, lastError := error,
    library := meta.library.orElse fun _ => r.library,
    showName := meta.showName.orElse fun _ => r.showName,
    season := meta.season.orElse fun _ => r.season,
    episode := meta.episode.orElse fun _ => r.episode,
    ext := meta.ext.orElse fun _ => r.ext,
    filename := meta.filename.orElse fun _ => r.filename,
    parentDir := meta.parentDir.orElse fun _ => r.parentDir,
    lastSeenUtc := now, lastCheckedUtc := now,
    statusChangedUtc := if statusChanged then some now else r.statusChangedUtc,
    firstBrokenUtc := firstBroken,
    lastBrokenUtc := if status == "broken" then some now else r.lastBrokenUtc,
    lastOkUtc := if status == "ok" then some now else r.lastOkUtc,
    seenCount := r.seenCount + 1,
    brokenCount := if status == "broken" then r.brokenCount + 1 else r.brokenCount,
    okCount := if status == "ok" then r.okCount + 1 else r.okCount,
    errorCount := if status == "error" then r.errorCount + 1 else r.errorCount,
    lastScanId := scanId,
    brokenAgeSeconds :=
      match firstBroken with
      | some fb => if status == "broken" && fb != 0 then now - fb else 0
      | none => 0 }

/-- `scanner.record_observation`, translated statement by statement: upsert
the symlink row, append a `symlink_events` row exactly when the status changed
on an existing row, and resolve any open quarantine on an `ok` observation. -/
def record_observation (db : ScanDB) (scanId : Nat) (path : String)
    (target : Option String) (status : String) (error : Option String)
    (meta : Meta) (now : Nat) : ScanDB :=
  match findSym db.symlinks path with
  | none =>
    let db1 := { db with
      symlinks := db.symlinks ++ [newRowFor path target status error meta scanId now] }
    if status == "ok" then resolveQuarantineIfReplaced db1 path scanId now else db1
  | some r =>
    let updated := updatedRowFor r target status error meta scanId now
    let db1 := { db with
      symlinks := db.symlinks.map fun q => if q.path == path then updated else q }
    let db2 := if r.lastStatus != status then
        { db1 with events := db1.events ++ [⟨now, path, r.lastStatus, status, scanId, none⟩] }
      else db1
    if status == "ok" then resolveQuarantineIfReplaced db2 path scanId now else db2

/-- A single scan observation for one path (the arguments the scan loop passes
to `record_observation`). -/
structure Obs where
  scanId : Nat
  target : Option String
  status : String
  error : Option String
  meta : Meta
  now : Nat
deriving Repr, DecidableEq

/-- N successive `record_observation` calls for one path. -/
def observeAll (db : ScanDB) (path : String) (obs : List Obs) : ScanDB :=
  obs.foldl (fun d o => record_observation d o.scanId path o.target o.status o.error o.meta o.now) db

/-- Number of observations in the list carrying a given status. -/
def countStatus (obs : List Obs) (st : String) : Nat :=
  (obs.filter fun o => o.status == st).length

theorem find?_map_comm {α : Type} (g : α → α) (pd : α → Bool)
    (h : ∀ a, pd (g a) = pd a) (l : List α) :
    (l.map g).find? pd = (l.find? pd).map g := by
  induction l with
  | nil => rfl
  | cons a t ih =>
    simp only [List.map_cons]
    cases hpa : pd a with
    | true =>
      rw [List.find?_cons_of_pos _ (by rw [h a]; exact hpa),
        List.find?_cons_of_pos _ hpa]
      rfl
    | false =>
      rw [List.find?_cons_of_neg _ (by rw [h a]; simp [hpa]),
        List.find?_cons_of_neg _ (by simp [hpa])]
      exact ih

theorem resolve_events (db : ScanDB) (p : String) (sid now : Nat) :
    (resolveQuarantineIfReplaced db p sid now).events = db.events := by
  unfold resolveQuarantineIfReplaced
  cases latestOpenQuarantine db.quarantines p <;> rfl

theorem resolve_quarantines_none (db : ScanDB) (p : String) (sid now : Nat)
    (h : latestOpenQuarantine db.quarantines p = none) :
    resolveQuarantineIfReplaced db p sid now = db := by
  unfold resolveQuarantineIfReplaced
  rw [h]

theorem resolve_symlinks (db : ScanDB) (p : String) (sid now : Nat) :
    (resolveQuarantineIfReplaced db p sid now).symlinks = db.symlinks
    ∨ (resolveQuarantineIfReplaced db p sid now).symlinks
        = db.symlinks.map (clearQuarCols p) := by
  unfold resolveQuarantineIfReplaced
  cases latestOpenQuarantine db.quarantines p with
  | none => exact Or.inl rfl
  | some sel => exact Or.inr rfl

theorem clearQuarCols_path (p : String) (r : SymRow) :
    (clearQuarCols p r).path = r.path := by
  unfold clearQuarCols; split <;> rfl

theorem clearQuarCols_core (p : String) (r : SymRow) :
    (clearQuarCols p r).seenCount = r.seenCount
    ∧ (clearQuarCols p r).brokenCount = r.brokenCount
    ∧ (clearQuarCols p r).okCount = r.okCount
    ∧ (clearQuarCols p r).errorCount = r.errorCount
    ∧ (clearQuarCols p r).firstSeenUtc = r.firstSeenUtc
    ∧ (clearQuarCols p r).lastStatus = r.lastStatus := by
  unfold clearQuarCols
  split <;> exact ⟨rfl, rfl, rfl, rfl, rfl, rfl⟩

/-- The quarantine-column clearing in `_resolve_quarantine_if_replaced` keeps
every field `record_observation`'s counters care about. -/
theorem findSym_resolve (db : ScanDB) (p : String) (sid now : Nat) (p' : String) :
    ∀ r', findSym db.symlinks p' = some r' →
      ∃ r'', findSym (resolveQuarantineIfReplaced db p sid now).symlinks p' = some r''
        ∧ r''.seenCount = r'.seenCount ∧ r''.brokenCount = r'.brokenCount
        ∧ r''.okCount = r'.okCount ∧ r''.errorCount = r'.errorCount
        ∧ r''.firstSeenUtc = r'.firstSeenUtc ∧ r''.lastStatus = r'.lastStatus := by
  intro r' hfind
  rcases resolve_symlinks db p sid now with hs | hs
  · exact ⟨r', by rw [hs]; exact hfind, rfl, rfl, rfl, rfl, rfl, rfl⟩
  · obtain ⟨h1, h2, h3, h4, h5, h6⟩ := clearQuarCols_core p r'
    refine ⟨clearQuarCols p r', ?_, h1, h2, h3, h4, h5, h6⟩
    rw [hs]
    unfold findSym at hfind ⊢
    rw [find?_map_comm (clearQuarCols p) _
      (fun a => by rw [clearQuarCols_path]) db.symlinks, hfind]
    rfl

theorem record_observation_fresh_eq (db : ScanDB) (sid : Nat) (p : String)
    (t : Option String) (st : String) (e : Option String) (m : Meta) (now : Nat)
    (hfresh : findSym db.symlinks p = none) :
    record_observation db sid p t st e m now =
      (let db1 : ScanDB := { db with
         symlinks := db.symlinks ++ [newRowFor p t st e m sid now] }
       if st == "ok" then resolveQuarantineIfReplaced db1 p sid now else db1) := by
  unfold record_observation
  rw [hfresh]

theorem record_observation_existing_eq (db : ScanDB) (sid : Nat) (p : String)
    (t : Option String) (st : String) (e : Option String) (m : Meta) (now : Nat)
    (r : SymRow) (hfind : findSym db.symlinks p = some r) :
    record_observation db sid p t st e m now =
      (let updated := updatedRowFor r t st e m sid now
       let db1 : ScanDB := { db with
         symlinks := db.symlinks.map fun q => if q.path == p then updated else q }
       let db2 := if r.lastStatus != st then
           { db1 with events := db1.events ++ [⟨now, p, r.lastStatus, st, sid, none⟩] }
         else db1
       if st == "ok" then resolveQuarantineIfReplaced db2 p sid now else db2) := by
  unfold record_observation
  rw [hfind]

theorem findSym_update (rows : List SymRow) (p : String) (r updated : SymRow)
    (hfind : findSym rows p = some r) (hup : (updated.path == p) = true) :
    findSym (rows.map fun q => if q.path == p then updated else q) p = some updated := by
  have hr : (r.path == p) = true := by
    have := List.find?_some hfind
    simpa [findSym] using this
  unfold findSym at hfind ⊢
  rw [find?_map_comm _ _ (fun q => by
    by_cases hq : (q.path == p) = true <;> simp [hq, hup]) rows, hfind]
  simp only [Option.map_some']
  rw [if_pos hr]

theorem findSym_append_fresh (rows : List SymRow) (p : String) (x : SymRow)
    (hfresh : findSym rows p = none) (hx : (x.path == p) = true) :
    findSym (rows ++ [x]) p = some x := by
  unfold findSym at hfresh ⊢
  rw [List.find?_append, hfresh]
  simp [List.find?, hx]

theorem updatedRowFor_core (r : SymRow) (t : Option String) (st : String)
    (e : Option String) (m : Meta) (sid now : Nat) :
    (updatedRowFor r t st e m sid now).path = r.path
    ∧ (updatedRowFor r t st e m sid now).seenCount = r.seenCount + 1
    ∧ (updatedRowFor r t st e m sid now).brokenCount
        = r.brokenCount + (if st == "broken" then 1 else 0)
    ∧ (updatedRowFor r t st e m sid now).okCount
        = r.okCount + (if st == "ok" then 1 else 0)
    ∧ (updatedRowFor r t st e m sid now).errorCount
        = r.errorCount + (if st == "error" then 1 else 0)
    ∧ (updatedRowFor r t st e m sid now).firstSeenUtc = r.firstSeenUtc
    ∧ (updatedRowFor r t st e m sid now).lastStatus = st := by
  refine ⟨rfl, rfl, ?_, ?_, ?_, rfl, rfl⟩
  · show (if st == "broken" then r.brokenCount + 1 else r.brokenCount) = _
    by_cases h : (st == "broken") = true <;> simp [h]
  · show (if st == "ok" then r.okCount + 1 else r.okCount) = _
    by_cases h : (st == "ok") = true <;> simp [h]
  · show (if st == "error" then r.errorCount + 1 else r.errorCount) = _
    by_cases h : (st == "error") = true <;> simp [h]

theorem newRowFor_core (p : String) (t : Option String) (st : String)
    (e : Option String) (m : Meta) (sid now : Nat) :
    (newRowFor p t st e m sid now).path = p
    ∧ (newRowFor p t st e m sid now).seenCount = 1
    ∧ (newRowFor p t st e m sid now).brokenCount = (if st == "broken" then 1 else 0)
    ∧ (newRowFor p t st e m sid now).okCount = (if st == "ok" then 1 else 0)
    ∧ (newRowFor p t st e m sid now).errorCount = (if st == "error" then 1 else 0)
    ∧ (newRowFor p t st e m sid now).firstSeenUtc = now
    ∧ (newRowFor p t st e m sid now).lastStatus = st :=
  ⟨rfl, rfl, rfl, rfl, rfl, rfl, rfl⟩

/-- Whatever the status, the final quarantine-resolution step of
`record_observation` keeps the core columns of every symlink row. -/
theorem record_observation_existing_step (db : ScanDB) (sid : Nat) (p : String)
    (t : Option String) (st : String) (e : Option String) (m : Meta) (now : Nat)
    (r : SymRow) (hfind : findSym db.symlinks p = some r) :
    ∃ rr, findSym (record_observation db sid p t st e m now).symlinks p = some rr
      ∧ rr.seenCount = r.seenCount + 1
      ∧ rr.brokenCount = r.brokenCount + (if st == "broken" then 1 else 0)
      ∧ rr.okCount = r.okCount + (if st == "ok" then 1 else 0)
      ∧ rr.errorCount = r.errorCount + (if st == "error" then 1 else 0)
      ∧ rr.firstSeenUtc = r.firstSeenUtc
      ∧ rr.lastStatus = st := by
  obtain ⟨hpath, hseen, hbrk, hok, herr, hfs, hls⟩ := updatedRowFor_core r t st e m sid now
  have hr : (r.path == p) = true := by
    have := List.find?_some hfind
    simpa [findSym] using this
  have hup : ((updatedRowFor r t st e m sid now).path == p) = true := by rw [hpath]; exact hr
  rw [record_observation_existing_eq db sid p t st e m now r hfind]
  simp only
  set updated := updatedRowFor r t st e m sid now with hupdated
  set db1 : ScanDB := { db with
    symlinks := db.symlinks.map fun q => if q.path == p then updated else q } with hdb1
  set db2 := if r.lastStatus != st then
      { db1 with events := db1.events ++ [⟨now, p, r.lastStatus, st, sid, none⟩] }
    else db1 with hdb2
  have hdb2syms : db2.symlinks = db1.symlinks := by
    rw [hdb2]; split <;> rfl
  have hfind2 : findSym db2.symlinks p = some updated := by
    rw [hdb2syms, hdb1]
    exact findSym_update db.symlinks p r updated hfind hup
  by_cases hokst : (st == "ok") = true
  · rw [if_pos hokst]
    obtain ⟨rr, hrr, h1, h2, h3, h4, h5, h6⟩ := findSym_resolve db2 p sid now p updated hfind2
    exact ⟨rr, hrr, by omega, by omega, by omega, by omega, by rw [h5, hfs], by rw [h6, hls]⟩
  · rw [if_neg hokst]
    exact ⟨updated, hfind2, hseen, hbrk, hok, herr, hfs, hls⟩

theorem record_observation_fresh_step (db : ScanDB) (sid : Nat) (p : String)
    (t : Option String) (st : String) (e : Option String) (m : Meta) (now : Nat)
    (hfresh : findSym db.symlinks p = none) :
    ∃ rr, findSym (record_observation db sid p t st e m now).symlinks p = some rr
      ∧ rr.seenCount = 1
      ∧ rr.brokenCount = (if st == "broken" then 1 else 0)
      ∧ rr.okCount = (if st == "ok" then 1 else 0)
      ∧ rr.errorCount = (if st == "error" then 1 else 0)
      ∧ rr.firstSeenUtc = now
      ∧ rr.lastStatus = st := by
  obtain ⟨hpath, hseen, hbrk, hok, herr, hfs, hls⟩ := newRowFor_core p t st e m sid now
  have hx : ((newRowFor p t st e m sid now).path == p) = true := by
    rw [hpath]; exact beq_self_eq_true p
  rw [record_observation_fresh_eq db sid p t st e m now hfresh]
  simp only
  set db1 : ScanDB := { db with
    symlinks := db.symlinks ++ [newRowFor p t st e m sid now] } with hdb1
  have hfind1 : findSym db1.symlinks p = some (newRowFor p t st e m sid now) := by
    rw [hdb1]
    exact findSym_append_fresh db.symlinks p _ hfresh hx
  by_cases hokst : (st == "ok") = true
  · rw [if_pos hokst]
    obtain ⟨rr, hrr, h1, h2, h3, h4, h5, h6⟩ :=
      findSym_resolve db1 p sid now p _ hfind1
    exact ⟨rr, hrr, by omega, by omega, by omega, by omega,
      by rw [h5, hfs], by rw [h6, hls]⟩
  · rw [if_neg hokst]
    exact ⟨_, hfind1, hseen, hbrk, hok, herr, hfs, hls⟩

theorem countStatus_cons (o : Obs) (os : List Obs) (st : String) :
    countStatus (o :: os) st = (if o.status == st then 1 else 0) + countStatus os st := by
  unfold countStatus
  rw [List.filter_cons]
  split <;> simp [List.length_cons, Nat.add_comm]

theorem observeAll_existing (p : String) :
    ∀ (obs : List Obs) (db : ScanDB) (r : SymRow),
      findSym db.symlinks p = some r →
      ∃ rr, findSym (observeAll db p obs).symlinks p = some rr
        ∧ rr.seenCount = r.seenCount + obs.length
        ∧ rr.brokenCount = r.brokenCount + countStatus obs "broken"
        ∧ rr.okCount = r.okCount + countStatus obs "ok"
        ∧ rr.errorCount = r.errorCount + countStatus obs "error"
        ∧ rr.firstSeenUtc = r.firstSeenUtc := by
  intro obs
  induction obs with
  | nil =>
    intro db r hfind
    exact ⟨r, hfind, by simp [countStatus], by simp [countStatus],
      by simp [countStatus], by simp [countStatus], rfl⟩
  | cons o os ih =>
    intro db r hfind
    obtain ⟨r1, hr1, hseen1, hbrk1, hok1, herr1, hfs1, _⟩ :=
      record_observation_existing_step db o.scanId p o.target o.status o.error o.meta o.now r hfind
    obtain ⟨rr, hrr, hseen, hbrk, hok, herr, hfs⟩ :=
      ih (record_observation db o.scanId p o.target o.status o.error o.meta o.now) r1 hr1
    refine ⟨rr, ?_, ?_, ?_, ?_, ?_, ?_⟩
    · simpa [observeAll, List.foldl_cons] using hrr
    · rw [hseen, hseen1]; simp [List.length_cons]; omega
    · rw [hbrk, hbrk1, countStatus_cons]; omega
    · rw [hok, hok1, countStatus_cons]; omega
    · rw [herr, herr1, countStatus_cons]; omega
    · rw [hfs, hfs1]

/-- C2: for a previously unseen path, after N observations the stored
`seen_count` equals N, each per-status counter equals the number of
observations with that status, and `first_seen_utc` is the timestamp of the
first observation; moreover (second conjunct) a single further observation of
an existing row increments `seen_count` by exactly one and never decreases any
per-status counter, and keeps `first_seen_utc` unchanged. -/
theorem c2_monotonic_counters :
    (∀ (db : ScanDB) (p : String) (o : Obs) (rest : List Obs),
       findSym db.symlinks p = none →
       ∃ rr, findSym (observeAll db p (o :: rest)).symlinks p = some rr
         ∧ rr.seenCount = (o :: rest).length
         ∧ rr.brokenCount = countStatus (o :: rest) "broken"
         ∧ rr.okCount = countStatus (o :: rest) "ok"
         ∧ rr.errorCount = countStatus (o :: rest) "error"
         ∧ rr.firstSeenUtc = o.now)
    ∧ (∀ (db : ScanDB) (sid : Nat) (p : String) (t : Option String) (st : String)
         (e : Option String) (m : Meta) (now : Nat) (r : SymRow),
       findSym db.symlinks p = some r →
       ∃ rr, findSym (record_observation db sid p t st e m now).symlinks p = some rr
         ∧ rr.seenCount = r.seenCount + 1
         ∧ r.brokenCount ≤ rr.brokenCount ∧ r.okCount ≤ rr.okCount
         ∧ r.errorCount ≤ rr.errorCount
         ∧ rr.firstSeenUtc = r.firstSeenUtc) := by
  constructor
  · intro db p o rest hfresh
    obtain ⟨r1, hr1, hseen1, hbrk1, hok1, herr1, hfs1, _⟩ :=
      record_observation_fresh_step db o.scanId p o.target o.status o.error o.meta o.now hfresh
    obtain ⟨rr, hrr, hseen, hbrk, hok, herr, hfs⟩ :=
      observeAll_existing p rest
        (record_observation db o.scanId p o.target o.status o.error o.meta o.now) r1 hr1
    refine ⟨rr, ?_, ?_, ?_, ?_, ?_, ?_⟩
    · simpa [observeAll, List.foldl_cons] using hrr
    · rw [hseen, hseen1]; simp [List.length_cons]; omega
    · rw [hbrk, hbrk1, countStatus_cons]
    · rw [hok, hok1, countStatus_cons]
    · rw [herr, herr1, countStatus_cons]
    · rw [hfs, hfs1]
  · intro db sid p t st e m now r hfind
    obtain ⟨rr, hrr, hseen, hbrk, hok, herr, hfs, _⟩ :=
      record_observation_existing_step db sid p t st e m now r hfind
    exact ⟨rr, hrr, hseen, by omega, by omega, by omega, hfs⟩

/-- C2 witness: three concrete observations (broken, broken, ok) of a fresh
path yield `seen_count = 3`, `broken_count = 2`, `ok_count = 1`,
`error_count = 0`, and `first_seen_utc` equal to the first timestamp. -/
theorem c2_monotonic_counters_witness :
    ∃ rr, findSym (observeAll ⟨[], [], []⟩ "/p"
        [⟨1, some "/t", "broken", none, ⟨none, none, none, none, none, none, none⟩, 100⟩,
         ⟨2, some "/t", "broken", none, ⟨none, none, none, none, none, none, none⟩, 200⟩,
         ⟨3, some "/t", "ok", none, ⟨none, none, none, none, none, none, none⟩, 300⟩]).symlinks
        "/p" = some rr
      ∧ rr.seenCount = 3 ∧ rr.brokenCount = 2 ∧ rr.okCount = 1 ∧ rr.errorCount = 0
      ∧ rr.firstSeenUtc = 100 := by
  obtain ⟨rr, hrr, h1, h2, h3, h4, h5⟩ := c2_monotonic_counters.1 ⟨[], [], []⟩ "/p"
    ⟨1, some "/t", "broken", none, ⟨none, none, none, none, none, none, none⟩, 100⟩
    [⟨2, some "/t", "broken", none, ⟨none, none, none, none, none, none, none⟩, 200⟩,
     ⟨3, some "/t", "ok", none, ⟨none, none, none, none, none, none, none⟩, 300⟩]
    (by decide)
  exact ⟨rr, hrr, by simpa using h1, by rw [h2]; decide, by rw [h3]; decide,
    by rw [h4]; decide, h5⟩

/-- C3: `record_observation` appends a `symlink_events` row iff the new status
differs from the stored `last_status` of an existing row (and never on first
sight); the appended row carries the old status, new status, scan id and
timestamp; events are only ever appended (the old log is a prefix), never
mutated. -/
theorem c3_event_on_change (db : ScanDB) (sid : Nat) (p : String)
    (t : Option String) (st : String) (e : Option String) (m : Meta) (now : Nat) :
    (findSym db.symlinks p = none →
      (record_observation db sid p t st e m now).events = db.events)
    ∧ (∀ r, findSym db.symlinks p = some r →
      (record_observation db sid p t st e m now).events
        = db.events ++
          (if r.lastStatus ≠ st then [⟨now, p, r.lastStatus, st, sid, none⟩] else [])) := by
  constructor
  · intro hfresh
    rw [record_observation_fresh_eq db sid p t st e m now hfresh]
    simp only
    split
    · rw [resolve_events]
    · rfl
  · intro r hfind
    rw [record_observation_existing_eq db sid p t st e m now r hfind]
    simp only
    have hev : ∀ d : ScanDB,
        (if st == "ok" then resolveQuarantineIfReplaced d p sid now else d).events
          = d.events := by
      intro d; split
      · rw [resolve_events]
      · rfl
    rw [hev]
    by_cases hch : (r.lastStatus != st) = true
    · rw [if_pos hch, if_pos (bne_iff_ne.mp hch)]
    · have : r.lastStatus = st := by
        have := bne_iff_ne (a := r.lastStatus) (b := st)
        simp only [Bool.not_eq_true] at hch
        by_contra hne
        exact absurd (this.mpr hne) (by simp [hch])
      rw [if_neg hch, if_neg (by simp [this])]
      simp

/-- C3 witness: an existing `broken` row observed `ok` appends exactly the
one change event; the same row observed `broken` again appends none. -/
theorem c3_event_on_change_witness :
    (record_observation
        ⟨[newRowFor "/p" (some "/t") "broken" none ⟨none, none, none, none, none, none, none⟩ 1 50],
         [], []⟩ 2 "/p" (some "/t") "ok" none
        ⟨none, none, none, none, none, none, none⟩ 60).events
      = [⟨60, "/p", "broken", "ok", 2, none⟩] := by
  have h := (c3_event_on_change
    ⟨[newRowFor "/p" (some "/t") "broken" none ⟨none, none, none, none, none, none, none⟩ 1 50],
     [], []⟩ 2 "/p" (some "/t") "ok" none
    ⟨none, none, none, none, none, none, none⟩ 60).2
    (newRowFor "/p" (some "/t") "broken" none ⟨none, none, none, none, none, none, none⟩ 1 50)
    (by decide)
  rw [h]
  decide

theorem foldMaxBy_mem {α : Type} (key : α → Nat) :
    ∀ (xs : List α) (x : α), foldMaxBy key x xs ∈ x :: xs := by
  intro xs
  induction xs with
  | nil => intro x; simp [foldMaxBy]
  | cons y ys ih =>
    intro x
    have h := ih (if key y > key x then y else x)
    unfold foldMaxBy at h ⊢
    rw [List.foldl_cons]
    rcases List.mem_cons.mp h with h | h
    · rw [h]
      split <;> simp
    · simp [h]

theorem foldMaxBy_ge {α : Type} (key : α → Nat) :
    ∀ (xs : List α) (x : α) (q : α), q ∈ x :: xs →
      key q ≤ key (foldMaxBy key x xs) := by
  intro xs
  induction xs with
  | nil =>
    intro x q hq
    have : q = x := by simpa using hq
    simp [this, foldMaxBy]
  | cons y ys ih =>
    intro x q hq
    have hx : key x ≤ key (if key y > key x then y else x) := by
      split <;> omega
    have hy : key y ≤ key (if key y > key x then y else x) := by
      split <;> omega
    have hstep : ∀ z, z ∈ (if key y > key x then y else x) :: ys →
        key z ≤ key (foldMaxBy key x (y :: ys)) := by
      intro z hz
      unfold foldMaxBy
      rw [List.foldl_cons]
      exact ih (if key y > key x then y else x) z hz
    rcases List.mem_cons.mp hq with h | h
    · subst h
      exact le_trans hx (hstep _ (List.mem_cons_self _ _))
    · rcases List.mem_cons.mp h with h | h
      · subst h
        exact le_trans hy (hstep _ (List.mem_cons_self _ _))
      · exact hstep q (List.mem_cons_of_mem _ h)

theorem latestOpenQuarantine_some_props (qs : List QuarRow) (p : String)
    (sel : QuarRow) (h : latestOpenQuarantine qs p = some sel) :
    sel ∈ qs ∧ sel.originalPath = p ∧ sel.state = "quarantined"
    ∧ ∀ q ∈ qs, q.originalPath = p → q.state = "quarantined" →
        q.createdUtc ≤ sel.createdUtc := by
  unfold latestOpenQuarantine at h
  cases hf : qs.filter (fun q => q.originalPath == p && q.state == "quarantined") with
  | nil => rw [hf] at h; cases h
  | cons x xs =>
    rw [hf] at h
    injection h with h
    have hmem : sel ∈ x :: xs := h ▸ foldMaxBy_mem QuarRow.createdUtc xs x
    have hmemf : sel ∈ qs.filter (fun q => q.originalPath == p && q.state == "quarantined") := by
      rw [hf]; exact hmem
    have hprops := List.mem_filter.mp hmemf
    refine ⟨hprops.1, ?_, ?_, ?_⟩
    · have := hprops.2; simp only [Bool.and_eq_true, beq_iff_eq] at this; exact this.1
    · have := hprops.2; simp only [Bool.and_eq_true, beq_iff_eq] at this; exact this.2
    · intro q hq hqp hqs
      have hqf : q ∈ qs.filter (fun q => q.originalPath == p && q.state == "quarantined") :=
        List.mem_filter.mpr ⟨hq, by simp [hqp, hqs]⟩
      rw [hf] at hqf
      exact h ▸ foldMaxBy_ge QuarRow.createdUtc xs x q hqf

/-- Both branches of `record_observation` pass their updated database through
the final quarantine-resolution step iff the status is `ok`; the step itself
only depends on the original `quarantines` table. -/
theorem record_observation_quarantines (db : ScanDB) (sid : Nat) (p : String)
    (t : Option String) (st : String) (e : Option String) (m : Meta) (now : Nat) :
    (record_observation db sid p t st e m now).quarantines
      = if st == "ok" then
          (match latestOpenQuarantine db.quarantines p with
           | none => db.quarantines
           | some sel => db.quarantines.map (resolveQuarRow sel sid now))
        else db.quarantines := by
  cases hfind : findSym db.symlinks p with
  | none =>
    rw [record_observation_fresh_eq db sid p t st e m now hfind]
    simp only
    cases hl : latestOpenQuarantine db.quarantines p <;>
      by_cases hok : (st == "ok") = true <;>
        simp [hok, resolveQuarantineIfReplaced, hl]
  | some r =>
    rw [record_observation_existing_eq db sid p t st e m now r hfind]
    simp only
    cases hl : latestOpenQuarantine db.quarantines p <;>
      by_cases hok : (st == "ok") = true <;>
        by_cases hch : (r.lastStatus != st) = true <;>
          simp [hok, hch, resolveQuarantineIfReplaced, hl]

/-- C7 counterexample: with two open quarantine rows for the same original
path, an `ok` observation of that path leaves one of them still in state
`quarantined` — the code resolves only the most recently created one, not
every open record as the claim states. -/
theorem c7_quarantine_resolution_counterexample :
    ((record_observation
        ⟨[newRowFor "/p" (some "/t") "broken" none
            ⟨none, none, none, none, none, none, none⟩ 1 50], [],
          [⟨1, "/p", "/quar/p", 10, "quarantined", none, none, none⟩,
           ⟨2, "/p", "/quar/p2", 20, "quarantined", none, none, none⟩]⟩
        5 "/p" (some "/t") "ok" none
        ⟨none, none, none, none, none, none, none⟩ 100).quarantines.any
      fun q => q.originalPath == "/p" && q.state == "quarantined") = true := by
  decide

/-- C7 (amended): an `ok` observation of path P resolves exactly the most
recently created open QuarantineRecord for P (stamping resolution reason
`replacement_seen`, time and scan id) and leaves all other quarantine rows
unchanged; observations with any status other than `ok` (in particular
`broken` and `error`) leave the quarantines table entirely unchanged. -/
theorem c7_quarantine_resolution_latest (db : ScanDB) (sid : Nat) (p : String)
    (t : Option String) (e : Option String) (m : Meta) (now : Nat) :
    (∀ st, st ≠ "ok" →
      (record_observation db sid p t st e m now).quarantines = db.quarantines)
    ∧ (latestOpenQuarantine db.quarantines p = none →
      (record_observation db sid p t "ok" e m now).quarantines = db.quarantines)
    ∧ (∀ sel, latestOpenQuarantine db.quarantines p = some sel →
        sel.originalPath = p ∧ sel.state = "quarantined"
        ∧ (∀ q ∈ db.quarantines, q.originalPath = p → q.state = "quarantined" →
            q.createdUtc ≤ sel.createdUtc)
        ∧ (record_observation db sid p t "ok" e m now).quarantines
            = db.quarantines.map (resolveQuarRow sel sid now)) := by
  refine ⟨?_, ?_, ?_⟩
  · intro st hst
    rw [record_observation_quarantines db sid p t st e m now,
      if_neg (by simp [hst])]
  · intro hnone
    have hok : (("ok" : String) == "ok") = true := rfl
    rw [record_observation_quarantines db sid p t "ok" e m now, if_pos hok, hnone]
  · intro sel hsel
    obtain ⟨_, hp, hq, hmax⟩ := latestOpenQuarantine_some_props db.quarantines p sel hsel
    refine ⟨hp, hq, hmax, ?_⟩
    have hok : (("ok" : String) == "ok") = true := rfl
    rw [record_observation_quarantines db sid p t "ok" e m now, if_pos hok, hsel]

/-- C7 witness: a single open quarantine row for a path observed `ok` ends up
`resolved` with reason `replacement_seen`; a `broken` observation leaves it
untouched. -/
theorem c7_quarantine_resolution_latest_witness :
    (record_observation
        ⟨[], [], [⟨1, "/p", "/quar/p", 10, "quarantined", none, none, none⟩]⟩
        5 "/p" none "ok" none ⟨none, none, none, none, none, none, none⟩ 100).quarantines
      = [⟨1, "/p", "/quar/p", 10, "resolved", some 100, some 5, some "replacement_seen"⟩]
    ∧ (record_observation
        ⟨[], [], [⟨1, "/p", "/quar/p", 10, "quarantined", none, none, none⟩]⟩
        5 "/p" none "broken" none ⟨none, none, none, none, none, none, none⟩ 100).quarantines
      = [⟨1, "/p", "/quar/p", 10, "quarantined", none, none, none⟩] := by
  constructor
  · rw [(c7_quarantine_resolution_latest
      ⟨[], [], [⟨1, "/p", "/quar/p", 10, "quarantined", none, none, none⟩]⟩
      5 "/p" none none ⟨none, none, none, none, none, none, none⟩ 100).2.2
      ⟨1, "/p", "/quar/p", 10, "quarantined", none, none, none⟩ (by decide) |>.2.2.2]
    decide
  · rw [(c7_quarantine_resolution_latest
      ⟨[], [], [⟨1, "/p", "/quar/p", 10, "quarantined", none, none, none⟩]⟩
      5 "/p" none none ⟨none, none, none, none, none, none, none⟩ 100).1
      "broken" (by decide)]

/-! ## CineSync matcher — `app/refresher/tools/cinesync_repair.py`

`parse_tmdb_id`, `norm_title`, `resolution_rank`, the `cinesync_items` table
and `find_cinesync_match`.  Strings are treated as ASCII character lists; the
regular expressions of the source are translated into character scanners. -/

/-- Value of a digit run, as `int()` reads it. -/
def digitsToNat (ds : List Char) : Nat :=
  ds.foldl (fun a c => a * 10 + (c.toNat - 48)) 0

/-- One attempted match of `\{tmdb-(\d+)\}` (case-insensitive) at the head
of the character list. -/
def tmdbAt (cs : List Char) : Option Nat :=
  match cs with
  | c0 :: c1 :: c2 :: c3 :: c4 :: c5 :: rest =>
    if c0 = Char.ofNat 123 ∧ c1.toLower = 't' ∧ c2.toLower = 'm' ∧ c3.toLower = 'd'
        ∧ c4.toLower = 'b' ∧ c5 = '-' then
      match rest.takeWhile Char.isDigit, rest.dropWhile Char.isDigit with
      | _ :: _, c :: _ =>
        if c = Char.ofNat 125 then some (digitsToNat (rest.takeWhile Char.isDigit))
        else none
      | _, _ => none
    else none
  | _ => none

/-- Left-to-right scan, like `re.search`. -/
def findTmdbFrom : List Char → Option Nat
  | [] => none
  | c :: rest =>
    match tmdbAt (c :: rest) with
    | some n => some n
    | none => findTmdbFrom rest

/-- `cinesync_repair.parse_tmdb_id`. -/
def parse_tmdb_id (s : String) : Option Nat :=
  findTmdbFrom s.data

/-- `YEAR_RE.sub("", s)`: drop every `(dddd)` (exactly four digits),
non-overlapping, left to right. -/
def stripYears : List Char → List Char
  | c :: d1 :: d2 :: d3 :: d4 :: c2 :: rest2 =>
    if c = '(' ∧ d1.isDigit ∧ d2.isDigit ∧ d3.isDigit ∧ d4.isDigit ∧ c2 = ')' then
      stripYears rest2
    else c :: stripYears (d1 :: d2 :: d3 :: d4 :: c2 :: rest2)
  | c :: rest => c :: stripYears rest
  | [] => []
termination_by l => l.length
decreasing_by all_goals simp_arith

/-- Python `str.lower()`, character-wise. -/
def strLower (s : String) : String :=
  String.mk (s.data.map Char.toLower)

/-- `[a-z0-9]` after lower-casing (ASCII model of the Python character class). -/
def isPyLowerAlnum (c : Char) : Bool :=
  (97 ≤ c.toNat && c.toNat ≤ 122) || c.isDigit

/-- `cinesync_repair.norm_title`: lower-case, drop `(dddd)` years, collapse
every non-alphanumeric run to one space, strip. -/
def norm_title (s : String) : String :=
  let low := strLower s
  let noYear := stripYears low.data
  let spaced := noYear.map fun c => if isPyLowerAlnum c then c else ' '
  let words := ((String.mk spaced).splitOn " ").filter (· ≠ "")
  String.intercalate " " words

/-- Substring containment on character lists (`needle in hay`). -/
def listContainsSub (needle : List Char) : List Char → Bool
  | [] => needle.isEmpty
  | c :: t => needle.isPrefixOf (c :: t) || listContainsSub needle t

def containsSub (needle hay : String) : Bool :=
  listContainsSub needle.data hay.data

/-- `cinesync_repair.resolution_rank`: 2160/4K > 1080 > 720 > 480 > unranked. -/
def resolution_rank (name : String) : Nat :=
  let n := strLower name
  if containsSub "2160" n || containsSub "4k" n then 40
  else if containsSub "1080" n then 30
  else if containsSub "720" n then 20
  else if containsSub "480" n then 10
  else 0

/-- One row of the `cinesync_items` index (as built by `index_cinesync`,
whose inserts always set season/episode/path). -/
structure CsItem where
  id : Nat
  tmdbId : Option Nat
  showTitle : String
  showNorm : String
  year : Option Nat
  season : Int
  episode : Int
  path : String
  targetOk : Bool
  resolutionRank : Nat
  firstSeenUtc : Nat
  lastSeenUtc : Nat
deriving Repr, DecidableEq

/-- `WHERE tmdb_id=? AND season=? AND episode=? AND target_ok=1`. -/
def csMatchesTmdb (tid : Nat) (season episode : Int) (it : CsItem) : Bool :=
  it.tmdbId == some tid && it.season == season && it.episode == episode && it.targetOk

/-- `WHERE show_norm=? AND season=? AND episode=? AND target_ok=1`. -/
def csMatchesNorm (sn : String) (season episode : Int) (it : CsItem) : Bool :=
  it.showNorm == sn && it.season == season && it.episode == episode && it.targetOk

/-- `ORDER BY resolution_rank DESC LIMIT 1` over a candidate list. -/
def pickBestByRank (l : List CsItem) : Option String :=
  match l with
  | [] => none
  | x :: xs => some (foldMaxBy CsItem.resolutionRank x xs).path

/-- `cinesync_repair.find_cinesync_match`: the guard is Python truthiness
(`if tmdb_id:`), so a *truthy* embedded tmdb identifier in the show folder
name selects the identifier query (with no fallback on a missing row), while
an absent — or parsed-as-zero — identifier falls through to the
normalized-title query; both queries keep only rows whose dereferenced target
currently resolves (`target_ok=1`) and take the highest resolution rank. -/
def find_cinesync_match (items : List CsItem) (showFolderName : String)
    (season episode : Int) : Option String :=
  match parse_tmdb_id showFolderName with
  | some tid =>
    if tid ≠ 0 then pickBestByRank (items.filter (csMatchesTmdb tid season episode))
    else
      pickBestByRank (items.filter (csMatchesNorm (norm_title showFolderName) season episode))
  | none =>
    pickBestByRank (items.filter (csMatchesNorm (norm_title showFolderName) season episode))

/-- The branch-dependent match predicate of `find_cinesync_match`, including
the `if tmdb_id:` truthiness (an id parsed as `0` is falsy). -/
def csSelMatches (showFolderName : String) (season episode : Int) (it : CsItem) : Bool :=
  match parse_tmdb_id showFolderName with
  | some tid =>
    if tid ≠ 0 then csMatchesTmdb tid season episode it
    else csMatchesNorm (norm_title showFolderName) season episode it
  | none => csMatchesNorm (norm_title showFolderName) season episode it

theorem pickBestByRank_spec (l : List CsItem) (p : String)
    (h : pickBestByRank l = some p) :
    ∃ it ∈ l, it.path = p ∧ ∀ it2 ∈ l, it2.resolutionRank ≤ it.resolutionRank := by
  unfold pickBestByRank at h
  cases l with
  | nil => cases h
  | cons x xs =>
    injection h with h
    exact ⟨foldMaxBy CsItem.resolutionRank x xs, foldMaxBy_mem _ xs x, h,
      fun it2 h2 => foldMaxBy_ge _ xs x it2 h2⟩

/-- C9: whenever `find_cinesync_match` returns a path, it is the path of an
indexed candidate that (i) matches the requested season/episode with a
currently-resolving target, (ii) matches by embedded tmdb identifier when the
show folder name carries a truthy (nonzero) one — the identifier query is
used exclusively then — and by normalized title when the identifier is absent
or parsed as the falsy `0`, and (iii) has maximal resolution rank among all
equally matching candidates.  The last two conjuncts give the concrete
preference: with two matching candidates, the strictly higher-ranked one
(e.g. 2160p over 1080p, per `resolution_rank`) is selected. -/
theorem c9_resolution_preference :
    (∀ (items : List CsItem) (hint : String) (season episode : Int) (p : String),
      find_cinesync_match items hint season episode = some p →
      ∃ it ∈ items, it.path = p ∧ it.targetOk = true
        ∧ it.season = season ∧ it.episode = episode
        ∧ (∀ tid, parse_tmdb_id hint = some tid → tid ≠ 0 → it.tmdbId = some tid)
        ∧ ((parse_tmdb_id hint = none ∨ parse_tmdb_id hint = some 0) →
            it.showNorm = norm_title hint)
        ∧ ∀ it2 ∈ items, csSelMatches hint season episode it2 = true →
            it2.resolutionRank ≤ it.resolutionRank)
    ∧ (∀ (hint : String) (season episode : Int) (c1 c2 : CsItem),
        csSelMatches hint season episode c1 = true →
        csSelMatches hint season episode c2 = true →
        c1.resolutionRank < c2.resolutionRank →
        find_cinesync_match [c1, c2] hint season episode = some c2.path)
    ∧ resolution_rank "Show.S01E01.1080p.WEB.mkv" = 30
    ∧ resolution_rank "Show.S01E01.2160p.WEB.mkv" = 40 := by
  refine ⟨?_, ?_, by decide, by decide⟩
  · intro items hint season episode p hres
    unfold find_cinesync_match at hres
    cases hp : parse_tmdb_id hint with
    | some tid =>
      rw [hp] at hres
      by_cases h0 : tid = 0
      · subst h0
        have hres' : pickBestByRank
            (items.filter (csMatchesNorm (norm_title hint) season episode))
            = some p := hres
        obtain ⟨it, hitf, hpath, hmax⟩ := pickBestByRank_spec _ p hres'
        obtain ⟨hitmem, hitpred⟩ := List.mem_filter.mp hitf
        have hpred := hitpred
        simp only [csMatchesNorm, Bool.and_eq_true, beq_iff_eq] at hpred
        refine ⟨it, hitmem, hpath, hpred.2, hpred.1.1.2, hpred.1.2, ?_, ?_, ?_⟩
        · intro tid' htid' hne0
          injection htid' with htid'
          exact absurd htid'.symm hne0
        · intro _
          exact hpred.1.1.1
        · intro it2 h2mem h2match
          unfold csSelMatches at h2match
          rw [hp] at h2match
          have h2' : csMatchesNorm (norm_title hint) season episode it2 = true := h2match
          exact hmax it2 (List.mem_filter.mpr ⟨h2mem, h2'⟩)
      · have hres1 : (if tid ≠ 0 then
            pickBestByRank (items.filter (csMatchesTmdb tid season episode))
          else
            pickBestByRank
              (items.filter (csMatchesNorm (norm_title hint) season episode)))
            = some p := hres
        rw [if_pos h0] at hres1
        obtain ⟨it, hitf, hpath, hmax⟩ := pickBestByRank_spec _ p hres1
        obtain ⟨hitmem, hitpred⟩ := List.mem_filter.mp hitf
        have hpred := hitpred
        simp only [csMatchesTmdb, Bool.and_eq_true, beq_iff_eq] at hpred
        refine ⟨it, hitmem, hpath, hpred.2, hpred.1.1.2, hpred.1.2, ?_, ?_, ?_⟩
        · intro tid' htid' _
          injection htid' with htid'
          rw [← htid']
          exact hpred.1.1.1
        · intro habs
          rcases habs with habs | habs
          · cases habs
          · injection habs with habs
            exact absurd habs h0
        · intro it2 h2mem h2match
          unfold csSelMatches at h2match
          rw [hp] at h2match
          have h2a : (if tid ≠ 0 then csMatchesTmdb tid season episode it2
              else csMatchesNorm (norm_title hint) season episode it2) = true := h2match
          rw [if_pos h0] at h2a
          exact hmax it2 (List.mem_filter.mpr ⟨h2mem, h2a⟩)
    | none =>
      rw [hp] at hres
      have hres' : pickBestByRank
          (items.filter (csMatchesNorm (norm_title hint) season episode))
          = some p := hres
      obtain ⟨it, hitf, hpath, hmax⟩ := pickBestByRank_spec _ p hres'
      obtain ⟨hitmem, hitpred⟩ := List.mem_filter.mp hitf
      have hpred := hitpred
      simp only [csMatchesNorm, Bool.and_eq_true, beq_iff_eq] at hpred
      refine ⟨it, hitmem, hpath, hpred.2, hpred.1.1.2, hpred.1.2, ?_, ?_, ?_⟩
      · intro tid' htid'
        cases htid'
      · intro _
        exact hpred.1.1.1
      · intro it2 h2mem h2match
        unfold csSelMatches at h2match
        rw [hp] at h2match
        exact hmax it2 (List.mem_filter.mpr ⟨h2mem, h2match⟩)
  · intro hint season episode c1 c2 h1 h2 hlt
    unfold csSelMatches at h1 h2
    unfold find_cinesync_match
    cases hp : parse_tmdb_id hint with
    | some tid =>
      rw [hp] at h1 h2
      by_cases h0 : tid = 0
      · subst h0
        have h1' : csMatchesNorm (norm_title hint) season episode c1 = true := h1
        have h2' : csMatchesNorm (norm_title hint) season episode c2 = true := h2
        show pickBestByRank
            (List.filter (csMatchesNorm (norm_title hint) season episode) [c1, c2])
          = some c2.path
        have hfil : List.filter (csMatchesNorm (norm_title hint) season episode) [c1, c2]
            = [c1, c2] := by
          simp [List.filter_cons, h1', h2']
        rw [hfil]
        unfold pickBestByRank foldMaxBy
        simp only [List.foldl_cons, List.foldl_nil]
        rw [if_pos hlt]
      · have h1a : (if tid ≠ 0 then csMatchesTmdb tid season episode c1
            else csMatchesNorm (norm_title hint) season episode c1) = true := h1
        have h2a : (if tid ≠ 0 then csMatchesTmdb tid season episode c2
            else csMatchesNorm (norm_title hint) season episode c2) = true := h2
        rw [if_pos h0] at h1a h2a
        show (if tid ≠ 0 then
            pickBestByRank (List.filter (csMatchesTmdb tid season episode) [c1, c2])
          else
            pickBestByRank
              (List.filter (csMatchesNorm (norm_title hint) season episode) [c1, c2]))
          = some c2.path
        rw [if_pos h0]
        have hfil : List.filter (csMatchesTmdb tid season episode) [c1, c2] = [c1, c2] := by
          simp [List.filter_cons, h1a, h2a]
        rw [hfil]
        unfold pickBestByRank foldMaxBy
        simp only [List.foldl_cons, List.foldl_nil]
        rw [if_pos hlt]
    | none =>
      rw [hp] at h1 h2
      have h1' : csMatchesNorm (norm_title hint) season episode c1 = true := h1
      have h2' : csMatchesNorm (norm_title hint) season episode c2 = true := h2
      show pickBestByRank
          (List.filter (csMatchesNorm (norm_title hint) season episode) [c1, c2])
        = some c2.path
      have hfil : List.filter (csMatchesNorm (norm_title hint) season episode) [c1, c2]
          = [c1, c2] := by
        simp [List.filter_cons, h1', h2']
      rw [hfil]
      unfold pickBestByRank foldMaxBy
      simp only [List.foldl_cons, List.foldl_nil]
      rw [if_pos hlt]

/-- C9 witness: two concrete candidates for the same tmdb-identified
show/season/episode at ranks 30 (1080p) and 40 (2160p); the matcher returns
the 2160p one. -/
theorem c9_resolution_preference_witness :
    find_cinesync_match
      [⟨1, some 99, "ShowA", "showa", some 2020, 1, 2,
        "/cs/Shows/ShowA/Season 1/ShowA.S01E02.1080p.mkv", true, 30, 5, 5⟩,
       ⟨2, some 99, "ShowA", "showa", some 2020, 1, 2,
        "/cs/Shows/ShowA/Season 1/ShowA.S01E02.2160p.mkv", true, 40, 5, 5⟩]
      "ShowA (2020) \x7btmdb-99\x7d" 1 2
      = some "/cs/Shows/ShowA/Season 1/ShowA.S01E02.2160p.mkv" :=
  c9_resolution_preference.2.1 "ShowA (2020) \x7btmdb-99\x7d" 1 2
    ⟨1, some 99, "ShowA", "showa", some 2020, 1, 2,
      "/cs/Shows/ShowA/Season 1/ShowA.S01E02.1080p.mkv", true, 30, 5, 5⟩
    ⟨2, some 99, "ShowA", "showa", some 2020, 1, 2,
      "/cs/Shows/ShowA/Season 1/ShowA.S01E02.2160p.mkv", true, 40, 5, 5⟩
    (by decide) (by decide) (by decide)

/-! ## CineSync replace phase — `app/refresher/tools/cinesync_repair.py`

A filesystem model: `realpathOf` and `pathExists` are snapshots of
`os.path.realpath` / `os.path.exists` (both follow symlink chains), `links`
is the set of live symlinks that `unlink`/`os.symlink` mutate. -/

structure Fs where
  realpathOf : String → String
  pathExists : String → Bool
  links : List (String × String)

/-- `Path.is_symlink()`. -/
def isSymlink (fs : Fs) (p : String) : Bool :=
  (fs.links.lookup p).isSome

/-- `cinesync_repair.is_symlink_ok`: a symlink whose chain resolves. -/
def is_symlink_ok (fs : Fs) (p : String) : Bool :=
  isSymlink fs p && fs.pathExists p

/-- `cinesync_repair.is_broken_symlink`. -/
def is_broken_symlink (fs : Fs) (p : String) : Bool :=
  isSymlink fs p && !(is_symlink_ok fs p)

/-- `cinesync_repair.resolve_real_target`: `os.path.realpath`, `None` when the
result is empty or does not exist. -/
def resolve_real_target (fs : Fs) (cinesyncPath : String) : Option String :=
  let rp := fs.realpathOf cinesyncPath
  if rp == "" || !fs.pathExists rp then none else some rp

/-- Python `str.rstrip("/")`. -/
def rstripSlashes (s : String) : String :=
  String.mk (s.data.reverse.dropWhile (fun c => c = '/')).reverse

/-- `cinesync_repair.target_allowed`: the resolved real path must equal an
allow-listed entry or start with it plus `/`. -/
def target_allowed (allowedPxs : List String) (realTarget : String) : Bool :=
  let rt := rstripSlashes realTarget
  allowedPxs.any fun px0 =>
    let px := rstripSlashes px0
    rt == px || (px ++ "/").data.isPrefixOf rt.data

/-- `broken_path.unlink(missing_ok=True)`. -/
def fsUnlink (fs : Fs) (p : String) : Fs :=
  { fs with links := fs.links.filter fun e => !(e.1 == p) }

/-- `os.symlink(real_target, str(broken_path))`. -/
def fsSymlink (fs : Fs) (p target : String) : Fs :=
  { fs with links := fs.links ++ [(p, target)] }

/-- `cinesync_repair.replace_symlink_to_real_target`, returning the Python
boolean together with the (possibly mutated) filesystem. -/
def replace_symlink_to_real_target (fs : Fs) (dryRun : Bool)
    (allowedPxs : List String) (brokenPath cinesyncMatchPath : String) : Bool × Fs :=
  if !(is_broken_symlink fs brokenPath) then (false, fs)
  else
    match resolve_real_target fs cinesyncMatchPath with
    | none => (false, fs)
    | some realTarget =>
      if !(target_allowed allowedPxs realTarget) then (false, fs)
      else if dryRun then (true, fs)
      else (true, fsSymlink (fsUnlink fs brokenPath) brokenPath realTarget)

/-- The per-run counters and path lists `run_repair_for_paths` returns. -/
structure RepairOutcome where
  checked : Nat
  candidates : Nat
  resolvedOk : Nat
  replaced : Nat
  skipped : Nat
  errors : Nat
  replacedPaths : List String
  skippedPaths : List String
  errorPaths : List String
deriving Repr, DecidableEq

/-- The item loop of `cinesync_repair.run_repair_for_paths`, faithful to the
source: after the broken-symlink check the code calls
`find_cinesync_match(live, show_hint=show_hint, conn=conn, indexed=indexed)`,
but `find_cinesync_match` is declared as
`find_cinesync_match(conn, show_folder_name, season, episode)`, so Python
raises `TypeError` there and the whole batch aborts; the rest of the item
body (allow-list check, skip accounting, replacement) is unreachable. -/
def runRepairForPathsLoop (fs : Fs) :
    List String → RepairOutcome → Except String (RepairOutcome × Fs)
  | [], acc => .ok (acc, fs)
  | p :: rest, acc =>
    if p == "" then runRepairForPathsLoop fs rest acc
    else
      let acc1 := { acc with checked := acc.checked + 1 }
      if !(is_broken_symlink fs p) then
        runRepairForPathsLoop fs rest
          { acc1 with
            skipped := acc1.skipped + 1,
            skippedPaths := acc1.skippedPaths ++ [p] }
      else
        .error "TypeError: find_cinesync_match() got an unexpected keyword argument show_hint"

/-- `cinesync_repair.run_repair_for_paths` end to end.  The item loop (the
`try` body) runs first; then the `finally` block executes
`UPDATE cinesync_runs SET finished_utc=?, checked=?, candidates=?,
resolved_ok=?, replaced=?, skipped=?, errors=? WHERE id=?` — but the
`cinesync_runs` table created by `ensure_schema` has columns
`checked_broken`, `candidate_found`, `resolved_target_ok` and key `run_id`,
none named `checked`, `candidates`, `resolved_ok` or `id`, so sqlite raises
`OperationalError` on every call.  An exception raised in a `finally` block
replaces any in-flight one, so the function raises this error on every
input, whatever the loop did. -/
def run_repair_for_paths (fs : Fs) (paths : List String) :
    Except String (RepairOutcome × Fs) :=
  match runRepairForPathsLoop fs paths ⟨0, 0, 0, 0, 0, 0, [], [], []⟩ with
  | .ok _ => .error "OperationalError: no such column: checked"
  | .error _ => .error "OperationalError: no such column: checked"

/-- The safety core of the replace phase: a resolved real target outside every
allow-listed prefix makes `replace_symlink_to_real_target` return `False`
without touching the filesystem, whatever the dry-run flag. -/
theorem replace_refused_no_mutation (fs : Fs) (dryRun : Bool)
    (pxs : List String) (broken matchp rt : String)
    (hres : resolve_real_target fs matchp = some rt)
    (hdis : target_allowed pxs rt = false) :
    replace_symlink_to_real_target fs dryRun pxs broken matchp = (false, fs) := by
  unfold replace_symlink_to_real_target
  by_cases hb : is_broken_symlink fs broken = true
  · rw [hb]
    simp only [Bool.not_true, Bool.false_eq_true, if_false]
    rw [hres]
    show (if (!target_allowed pxs rt) = true then ((false, fs) : Bool × Fs)
      else if dryRun = true then (true, fs)
      else (true, fsSymlink (fsUnlink fs broken) broken rt)) = (false, fs)
    rw [hdis]
    simp
  · have : is_broken_symlink fs broken = false := by simpa using hb
    rw [this]
    simp

/-- C5: evaluation at the failing input.  First conjunct: the cited
replacement primitive refuses a candidate whose dereferenced real file lies
outside every allow-listed prefix, mutating nothing.  Second conjunct: the
batch entry point `run_repair_for_paths` never reaches that check — for any
batch containing a broken symlink its `find_cinesync_match(live,
show_hint=..., conn=..., indexed=...)` call mismatches the callee signature
`(conn, show_folder_name, season, episode)` and raises `TypeError`, aborting
the whole batch instead of reporting the item as skipped. -/
theorem c5_safety_boundary_batch_abort_bug :
    (replace_symlink_to_real_target
        ⟨fun _ => "/real/elsewhere.mkv", fun q => q == "/real/elsewhere.mkv",
         [("/opt/media/jelly/tv/A/Season 1/A.S01E01.mkv", "/mnt/gone.mkv")]⟩
        false ["/mnt/remote"]
        "/opt/media/jelly/tv/A/Season 1/A.S01E01.mkv" "/cs/Shows/A/Season 1/A.S01E01.mkv"
      = (false,
        ⟨fun _ => "/real/elsewhere.mkv", fun q => q == "/real/elsewhere.mkv",
         [("/opt/media/jelly/tv/A/Season 1/A.S01E01.mkv", "/mnt/gone.mkv")]⟩))
    ∧ runRepairForPathsLoop
        ⟨fun _ => "/real/elsewhere.mkv", fun q => q == "/real/elsewhere.mkv",
         [("/opt/media/jelly/tv/A/Season 1/A.S01E01.mkv", "/mnt/gone.mkv")]⟩
        ["/opt/media/jelly/tv/A/Season 1/A.S01E01.mkv"] ⟨0, 0, 0, 0, 0, 0, [], [], []⟩
      = .error "TypeError: find_cinesync_match() got an unexpected keyword argument show_hint" := by
  constructor
  · rfl
  · rfl

/-! ## Watchdog — `app/refresher/tools/watchdog.py`

The `symlinks` columns the watchdog reads and writes (`_ensure_cols`), the
candidate selection, per-show de-duplication, grouping, quarantine/relay
stage and the manual-escalation bookkeeping.  The stage-1 call
`cinesync_repair.run_repair_for_paths(paths, dry_run=False)` is the function
embedded above, so its exceptions propagate out of `run_watchdog` exactly as
in the source.  The remaining external collaborators are oracles in
`WatchdogEnv`: `relay_trigger` is `relayOk`, `resolve_sonarr_title` is
`sonarrTitle`, and the `quarantine_broken_symlink` filesystem probe/rename
are the three `fs*` fields. -/

structure WRow where
  path : String
  library : Option String
  showName : Option String
  season : Option Int
  episode : Option Int
  lastStatus : String
  brokenAgeSeconds : Nat
  lastBrokenUtc : Nat
  manualRequired : Option Nat
  manualReason : Option String
  repairState : Option String
  attemptsCinesync : Option Nat
  attemptsArr : Option Nat
  lastRepairMethod : Option String
  lastRepairUtc : Option Nat
  nextRetryUtc : Option Nat
deriving Repr, DecidableEq

/-- The candidate dicts built by `select_broken`. -/
structure WItem where
  path : String
  library : String
  showName : String
  season : Option Int
  episode : Option Int
  brokenAgeSeconds : Nat
  attemptsArr : Nat
deriving Repr, DecidableEq

structure WatchdogCfg where
  runLimit : Nat
  seasonThreshold : Nat
  arrCooldownSec : Nat
  maxArrAttempts : Nat
deriving Repr, DecidableEq

structure WatchdogEnv where
  fsIsSymlink : String → Bool
  fsExists : String → Bool
  renameOk : String → Bool
  sonarrTitle : String → String → Option String
  relayOk : String → String → String → Bool

structure Trigger where
  kind : String
  scope : String
  term : String
deriving Repr, DecidableEq

/-- `WHERE last_status='broken' AND COALESCE(manual_required,0)=0 AND
(next_retry_utc IS NULL OR next_retry_utc <= now)`. -/
def wSelectPred (now : Nat) (r : WRow) : Bool :=
  r.lastStatus == "broken" && (r.manualRequired.getD 0) == 0 &&
    (match r.nextRetryUtc with
     | none => true
     | some t => decide (t ≤ now))

/-- `ORDER BY broken_age_seconds DESC, last_broken_utc DESC` as a comparison. -/
def wOrderGE (a b : WRow) : Bool :=
  decide (b.brokenAgeSeconds < a.brokenAgeSeconds) ||
    (a.brokenAgeSeconds == b.brokenAgeSeconds && decide (b.lastBrokenUtc ≤ a.lastBrokenUtc))

def insertByDesc (r : WRow) : List WRow → List WRow
  | [] => [r]
  | x :: xs => if wOrderGE r x then r :: x :: xs else x :: insertByDesc r xs

def sortByDesc (l : List WRow) : List WRow :=
  l.foldr insertByDesc []

def wToItem (r : WRow) : WItem :=
  { path := r.path, library := r.library.getD "", showName := r.showName.getD "",
    season := r.season, episode := r.episode,
    brokenAgeSeconds := r.brokenAgeSeconds, attemptsArr := r.attemptsArr.getD 0 }

/-- `watchdog.select_broken`. -/
def select_broken (rows : List WRow) (now : Nat) (runLimit : Nat) : List WItem :=
  ((sortByDesc (rows.filter (wSelectPred now))).take runLimit).map wToItem

/-- The per-show gating loop: keep only the first candidate of each
`(library, show, season)` key (`per_show_seasons[key] == 1`). -/
def dedupCandidates : List WItem → List (String × String × Option Int) → List WItem
  | [], _ => []
  | b :: rest, seen =>
    let key := (b.library, b.showName, b.season)
    if seen.contains key then dedupCandidates rest seen
    else b :: dedupCandidates rest (key :: seen)

def addToGroup (groups : List ((String × String × Option Int) × List WItem))
    (key : String × String × Option Int) (it : WItem) :
    List ((String × String × Option Int) × List WItem) :=
  match groups with
  | [] => [(key, [it])]
  | (k, l) :: rest =>
    if k == key then (k, l ++ [it]) :: rest
    else (k, l) :: addToGroup rest key it

/-- `groups.setdefault((lib, show, season), []).append(r)` over an
insertion-ordered dict. -/
def groupByKey (items : List WItem) : List ((String × String × Option Int) × List WItem) :=
  items.foldl (fun gs it => addToGroup gs (it.library, it.showName, it.season) it) []

/-- `watchdog.mark_manual`. -/
def mark_manual (rows : List WRow) (p : String) (reason : String) (now : Nat) : List WRow :=
  rows.map fun r =>
    if r.path == p then
      { r with
        manualRequired := some 1, manualReason := some reason,
        repairState := some "manual",
        lastRepairMethod := some (r.lastRepairMethod.getD "watchdog"),
        lastRepairUtc := some now }
    else r

def mark_arr_attempt_one (cooldown : Nat) (reason : Option String) (now : Nat)
    (rows : List WRow) (p : String) : List WRow :=
  rows.map fun r =>
    if r.path == p then
      { r with
        attemptsArr := some (r.attemptsArr.getD 0 + 1),
        repairState := some "arr",
        lastRepairMethod := some "arr",
        lastRepairUtc := some now,
        nextRetryUtc := some (now + cooldown),
        manualReason := r.manualReason.orElse fun _ => reason }
    else r

/-- `watchdog.mark_arr_attempt` (called with `reason=None` in `run_watchdog`). -/
def mark_arr_attempt (cooldown : Nat) (reason : Option String) (now : Nat)
    (rows : List WRow) (paths : List String) : List WRow :=
  paths.foldl (mark_arr_attempt_one cooldown reason now) rows

/-- `f"{int(ep):02d}"`. -/
def pad2Int (episode : Int) : String :=
  if 0 ≤ episode ∧ episode < 10 then "0" ++ toString episode else toString episode

/-- The items actually moved aside by `quarantine_broken_symlink`
(`p.is_symlink() and not p.exists()` and the rename succeeded). -/
def quarantineMoved (env : WatchdogEnv) (items : List WItem) : List String :=
  (items.filter fun i =>
    env.fsIsSymlink i.path && !env.fsExists i.path && env.renameOk i.path).map (·.path)

/-- The episode-scope loop: `ok_all = ok_all and relay_trigger(...)`
short-circuits, so once a trigger failed no further episode search is fired;
items without a season or episode number are skipped. -/
def episodeLoop (env : WatchdogEnv) (kind title : String) (season : Option Int)
    (items : List WItem) (trigs : List Trigger) : List Trigger × Bool :=
  items.foldl
    (fun acc i =>
      match season, i.episode with
      | some sn, some ep =>
        if acc.2 then
          let term := title ++ " S" ++ toString sn ++ "E" ++ pad2Int ep
          (acc.1 ++ [⟨kind, "episode", term⟩], env.relayOk kind "episode" term)
        else (acc.1, false)
      | _, _ => acc)
    (trigs, true)

/-- One `(lib, show, season), items` group of `run_watchdog` stage 2. -/
def processGroup (cfg : WatchdogCfg) (env : WatchdogEnv) (now : Nat)
    (st : List WRow × List Trigger)
    (g : (String × String × Option Int) × List WItem) : List WRow × List Trigger :=
  let rows := st.1
  let trigs := st.2
  let lib := g.1.1
  let showName := g.1.2.1
  let season := g.1.2.2
  let items := g.2
  if items.any fun i => cfg.maxArrAttempts ≤ i.attemptsArr then
    (items.foldl (fun rs i => mark_manual rs i.path "max_arr_attempts_reached" now) rows,
     trigs)
  else
    let moved := quarantineMoved env items
    if moved.isEmpty then (rows, trigs)
    else
      let inst := if strLower lib == "hayu" then "hayu" else "tv"
      let title := (env.sonarrTitle showName inst).getD showName
      let kind := if inst == "hayu" then "sonarr_hayu" else "sonarr_tv"
      let epResult := episodeLoop env kind title season items trigs
      let episodeFinish : List WRow × List Trigger :=
        if !epResult.2 then
          (moved.foldl (fun rs p => mark_manual rs p "relay_episode_failed" now) rows,
           epResult.1)
        else (mark_arr_attempt cfg.arrCooldownSec none now rows moved, epResult.1)
      match season with
      | some sn =>
        if cfg.seasonThreshold ≤ items.length then
          let term := title ++ " S" ++ toString sn
          let ok := env.relayOk kind "season" term
          let trigs1 := trigs ++ [⟨kind, "season", term⟩]
          if !ok then
            (moved.foldl (fun rs p => mark_manual rs p "relay_season_failed" now) rows,
             trigs1)
          else (mark_arr_attempt cfg.arrCooldownSec none now rows moved, trigs1)
        else episodeFinish
      | none => episodeFinish

/-- `watchdog.run_watchdog`, one iteration: select, de-duplicate per
`(library, show, season)`, call the cinesync stage on the candidate paths,
drop the paths it replaced, group the remainder by the same key and process
each group.  The returned trigger list records every relay call made, in
order.  Because `run_repair_for_paths` raises on every call (see its doc
comment), a pass with any eligible broken row propagates that exception and
never reaches stage 2. -/
def run_watchdog (cfg : WatchdogCfg) (env : WatchdogEnv) (fs : Fs)
    (rows : List WRow) (now : Nat) : Except String (List WRow × List Trigger) :=
  let broken := select_broken rows now cfg.runLimit
  if broken.isEmpty then .ok (rows, [])
  else
    let candidates := dedupCandidates broken []
    match run_repair_for_paths fs (candidates.map (·.path)) with
    | .error e => .error e
    | .ok (cs, _) =>
      let remaining := candidates.filter fun c => !(cs.replacedPaths.contains c.path)
      let groups := groupByKey remaining
      .ok (groups.foldl (processGroup cfg env now) (rows, []))

theorem mem_insertByDesc (r : WRow) :
    ∀ (l : List WRow) (x : WRow), x ∈ insertByDesc r l → x = r ∨ x ∈ l := by
  intro l
  induction l with
  | nil =>
    intro x hx
    exact Or.inl (by simpa [insertByDesc] using hx)
  | cons y ys ih =>
    intro x hx
    unfold insertByDesc at hx
    split at hx
    · rcases List.mem_cons.mp hx with h | h
      · exact Or.inl h
      · exact Or.inr h
    · rcases List.mem_cons.mp hx with h | h
      · exact Or.inr (h ▸ List.mem_cons_self y ys)
      · rcases ih x h with h2 | h2
        · exact Or.inl h2
        · exact Or.inr (List.mem_cons_of_mem y h2)

theorem mem_sortByDesc :
    ∀ (l : List WRow) (x : WRow), x ∈ sortByDesc l → x ∈ l := by
  intro l
  induction l with
  | nil => intro x hx; exact absurd hx (by simp [sortByDesc])
  | cons y ys ih =>
    intro x hx
    have hx' : x ∈ insertByDesc y (sortByDesc ys) := by
      simpa [sortByDesc, List.foldr_cons] using hx
    rcases mem_insertByDesc y (sortByDesc ys) x hx' with h | h
    · exact h ▸ List.mem_cons_self y ys
    · exact List.mem_cons_of_mem y (ih x h)

/-- C6: (i) every candidate `select_broken` returns comes from a row with
`last_status='broken'`, `COALESCE(manual_required,0)=0` and an elapsed (or
NULL) `next_retry_utc` — so a record with `manual_required=1` is never
selected; but (ii) a watchdog pass over an item that enters with
`attempts_arr = MAX-1` (2 of the default 3) never reaches a repair trigger at
all: the stage-1 `run_repair_for_paths` call raises on every invocation, the
pass aborts with its `OperationalError`, and no attempt counter, cooldown or
`manual_required` flag is ever written by the watchdog. -/
theorem c6_escalation_unreachable :
    (∀ (rows : List WRow) (now lim : Nat) (it : WItem),
      it ∈ select_broken rows now lim →
      ∃ r ∈ rows, r.path = it.path ∧ r.manualRequired.getD 0 = 0
        ∧ r.lastStatus = "broken")
    ∧ (run_watchdog ⟨50, 2, 21600, 3⟩
        ⟨fun _ => true, fun _ => false, fun _ => true,
         fun _ _ => none, fun _ _ _ => true⟩
        ⟨fun _ => "", fun _ => false, []⟩
        [⟨"/opt/media/jelly/tv/A/Season 2/A S02E03.mkv", some "tv", some "A",
          some 2, some 3, "broken", 300, 10, none, none, none, none, some 2,
          none, none, none⟩] 1000
      = .error "OperationalError: no such column: checked")
    ∧ (run_watchdog ⟨50, 2, 21600, 3⟩
        ⟨fun _ => true, fun _ => false, fun _ => true,
         fun _ _ => none, fun _ _ _ => false⟩
        ⟨fun _ => "", fun _ => false, []⟩
        [⟨"/opt/media/jelly/tv/A/Season 2/A S02E03.mkv", some "tv", some "A",
          some 2, some 3, "broken", 300, 10, none, none, none, none, some 2,
          none, none, none⟩] 1000
      = .error "OperationalError: no such column: checked") := by
  refine ⟨?_, by rfl, by rfl⟩
  intro rows now lim it hit
  unfold select_broken at hit
  rcases List.mem_map.mp hit with ⟨r, hrtake, hr⟩
  have hsort : r ∈ sortByDesc (rows.filter (wSelectPred now)) :=
    List.take_subset lim _ hrtake
  have hmemf := mem_sortByDesc _ r hsort
  obtain ⟨hmem, hpred⟩ := List.mem_filter.mp hmemf
  unfold wSelectPred at hpred
  simp only [Bool.and_eq_true, beq_iff_eq] at hpred
  exact ⟨r, hmem, by rw [← hr]; rfl, hpred.1.2, hpred.1.1⟩

/-- C6 witness: the selection facts of the first conjunct at the concrete
pre-escalation row. -/
theorem c6_escalation_unreachable_witness :
    ∃ r ∈ [(⟨"/opt/media/jelly/tv/A/Season 2/A S02E03.mkv", some "tv", some "A",
        some 2, some 3, "broken", 300, 10, none, none, none, none, some 2,
        none, none, none⟩ : WRow)],
      r.path = "/opt/media/jelly/tv/A/Season 2/A S02E03.mkv"
        ∧ r.manualRequired.getD 0 = 0 ∧ r.lastStatus = "broken" :=
  c6_escalation_unreachable.1
    [⟨"/opt/media/jelly/tv/A/Season 2/A S02E03.mkv", some "tv", some "A",
      some 2, some 3, "broken", 300, 10, none, none, none, none, some 2,
      none, none, none⟩] 1000 50
    ⟨"/opt/media/jelly/tv/A/Season 2/A S02E03.mkv", "tv", "A", some 2, some 3,
      300, 2⟩ (by decide)

/-- C4: evaluation at the spec's scenario.  With three broken episodes of the
same show/season and season threshold 2, `run_watchdog` issues zero search
terms of any scope: the stage-1 `run_repair_for_paths` call raises on every
invocation, so the pass aborts before the grouping stage (first conjunct).
The remaining conjuncts show that even the stage-2 logic, were it reached,
could never fire the season branch for this input: the per-show
de-duplication keeps one representative of the three candidates, and grouping
that remainder by the same `(library, show, season)` key yields a single
one-element group, below the threshold of 2. -/
theorem c4_watchdog_no_search_terms :
    (run_watchdog ⟨50, 2, 21600, 3⟩
        ⟨fun _ => true, fun _ => false, fun _ => true,
         fun _ _ => none, fun _ _ _ => true⟩
        ⟨fun _ => "", fun _ => false, []⟩
        [⟨"/opt/media/jelly/tv/A/Season 2/A S02E01.mkv", some "tv", some "A",
          some 2, some 1, "broken", 300, 10, none, none, none, none, some 0,
          none, none, none⟩,
         ⟨"/opt/media/jelly/tv/A/Season 2/A S02E02.mkv", some "tv", some "A",
          some 2, some 2, "broken", 200, 10, none, none, none, none, some 0,
          none, none, none⟩,
         ⟨"/opt/media/jelly/tv/A/Season 2/A S02E03.mkv", some "tv", some "A",
          some 2, some 3, "broken", 100, 10, none, none, none, none, some 0,
          none, none, none⟩] 1000
      = .error "OperationalError: no such column: checked")
    ∧ (dedupCandidates
        [⟨"/opt/media/jelly/tv/A/Season 2/A S02E01.mkv", "tv", "A", some 2,
          some 1, 300, 0⟩,
         ⟨"/opt/media/jelly/tv/A/Season 2/A S02E02.mkv", "tv", "A", some 2,
          some 2, 200, 0⟩,
         ⟨"/opt/media/jelly/tv/A/Season 2/A S02E03.mkv", "tv", "A", some 2,
          some 3, 100, 0⟩] []
      = [⟨"/opt/media/jelly/tv/A/Season 2/A S02E01.mkv", "tv", "A", some 2,
          some 1, 300, 0⟩])
    ∧ (groupByKey
        [⟨"/opt/media/jelly/tv/A/Season 2/A S02E01.mkv", "tv", "A", some 2,
          some 1, 300, 0⟩]
      = [(("tv", "A", some 2),
          [⟨"/opt/media/jelly/tv/A/Season 2/A S02E01.mkv", "tv", "A", some 2,
            some 1, 300, 0⟩])]) :=
  ⟨by rfl, by decide, by decide⟩

/-! ## Mount checks and the config-driven scan entry —
`app/refresher/core/mounts.py` and its caller -/

/-- The mount-related view of the operating system that
`mounts.is_mount_present` consults: `psutil.disk_partitions(all=True)`
mountpoints, `os.path.ismount` and `os.path.exists`.  `os.path.abspath` is
the identity on the absolute paths used in configuration. -/
structure MountFs where
  partitions : List String
  ismount : String → Bool
  pathPresent : String → Bool

/-- `mounts.is_mount_present`: true when the path is one of the partition
mountpoints, or `os.path.ismount`/`os.path.exists` holds. -/
def is_mount_present (mfs : MountFs) (path : String) : Bool :=
  mfs.partitions.any (fun m => m == path) || mfs.ismount path || mfs.pathPresent path

/-- The `{"ok": ..., "summary": {"mount_ok": ...}}` shape callers read
(`app/healthcheck.py`). -/
structure ScanResult where
  ok : Bool
  mountOk : Bool
deriving Repr, DecidableEq

/-- Modelled from the spec: the config-driven scan entry point
`scan_once(config)` — the version invoked by `app/healthcheck.py`,
`core/repair_runner.py` and the dashboard, which takes the loaded
configuration (scan roots and `mount_checks`) and returns a result dict with
a `mount_ok` summary flag — is not among the sources; only its callers, the
`mounts.is_mount_present` helper and the `scans.mount_ok` column of the
store schema are.  Per the spec (§4.3): "a scan aborts early (without
touching StatusStore) if a required mount-point check fails, returning a
distinguishable \"mount absent\" result so callers do not mistake unmounted
storage for mass breakage".  The filesystem walk is the `items` oracle; a
passing run records its observations through the store's `add_items`. -/
def scan_once_checked (mfs : MountFs) (mountChecks : List String)
    (items : List StoreItem) (db : StoreDB) (scanId now : Nat) :
    ScanResult × StoreDB :=
  if mountChecks.any fun m => !(is_mount_present mfs m) then
    (⟨false, false⟩, db)
  else
    (⟨true, true⟩, add_items db scanId items now)

/-- C8: if any configured mount check fails, the scan aborts early — the
store is returned untouched (no observation written) and the result carries
`mount_ok=false`; when every check passes the result carries `mount_ok=true`
and the observations are recorded, so a caller can tell unmounted storage
apart from mass breakage by the flag. -/
theorem c8_mount_absent_aborts (mfs : MountFs) (mountChecks : List String)
    (items : List StoreItem) (db : StoreDB) (scanId now : Nat) :
    ((∃ m ∈ mountChecks, is_mount_present mfs m = false) →
      scan_once_checked mfs mountChecks items db scanId now = (⟨false, false⟩, db))
    ∧ ((∀ m ∈ mountChecks, is_mount_present mfs m = true) →
      scan_once_checked mfs mountChecks items db scanId now
        = (⟨true, true⟩, add_items db scanId items now)) := by
  constructor
  · intro ⟨m, hm, habs⟩
    unfold scan_once_checked
    rw [if_pos]
    exact List.any_eq_true.mpr ⟨m, hm, by simp [habs]⟩
  · intro hall
    unfold scan_once_checked
    rw [if_neg]
    simp only [List.any_eq_true, not_exists]
    intro m
    simp only [not_and, Bool.not_eq_true']
    intro hm
    simpa using hall m hm

/-- C8 witness: a missing `/mnt/remote` aborts the scan with `mount_ok=false`
and an untouched store; a present one records the observation. -/
theorem c8_mount_absent_aborts_witness :
    (scan_once_checked ⟨[], fun _ => false, fun _ => false⟩ ["/mnt/remote"]
        [⟨"/opt/media/jelly/tv/A/a.mkv", some "mkv", some "/mnt/remote/a.mkv",
          false, none, none⟩] ⟨[], [], []⟩ 1 100
      = (⟨false, false⟩, ⟨[], [], []⟩))
    ∧ (scan_once_checked ⟨["/mnt/remote"], fun _ => false, fun _ => false⟩
        ["/mnt/remote"]
        [⟨"/opt/media/jelly/tv/A/a.mkv", some "mkv", some "/mnt/remote/a.mkv",
          false, none, none⟩] ⟨[], [], []⟩ 1 100
      = (⟨true, true⟩,
         add_items ⟨[], [], []⟩ 1
           [⟨"/opt/media/jelly/tv/A/a.mkv", some "mkv", some "/mnt/remote/a.mkv",
             false, none, none⟩] 100)) :=
  ⟨(c8_mount_absent_aborts ⟨[], fun _ => false, fun _ => false⟩ ["/mnt/remote"]
      [⟨"/opt/media/jelly/tv/A/a.mkv", some "mkv", some "/mnt/remote/a.mkv",
        false, none, none⟩] ⟨[], [], []⟩ 1 100).1
    ⟨"/mnt/remote", by decide, by decide⟩,
   (c8_mount_absent_aborts ⟨["/mnt/remote"], fun _ => false, fun _ => false⟩
      ["/mnt/remote"]
      [⟨"/opt/media/jelly/tv/A/a.mkv", some "mkv", some "/mnt/remote/a.mkv",
        false, none, none⟩] ⟨[], [], []⟩ 1 100).2
    (by intro m hm; simp at hm; subst hm; decide)⟩

end Refresherr
